import Mathlib

/-!
Shallow embedding of the prpr rhythm-game runtime, covering the parts of
`src/lib.rs` (the `the_main` session loop) and `prpr/src/scene/loading.rs`
(the `LoadingScene`) that the verified properties below are about.

Conventions of the embedding:
- `f32`/`f64` quantities (clock readings, chart time, offsets) are embedded
  as `ℚ`; the claims settled here are exact arithmetic identities that do not
  depend on rounding.
- Code of the repository that is not among the given files (the `Judge`
  internals, the chart structures, the parsers, the audio backend, the
  per-note render bodies) is kept abstract: such operations are parameters
  of the embedded functions, and their state lives in type parameters.
  Everything that is concrete below is a direct translation of the given
  source lines.
-/

namespace Prpr

/-- The three judge-line highlight colors used at `lib.rs:182-190`.
Modelled from the spec: the RGBA values of `JUDGE_LINE_PERFECT_COLOR` and
`JUDGE_LINE_GOOD_COLOR` live in `prpr::core`, and `WHITE` in macroquad,
none of which is among the given files; the spec describes them as three
distinct colors (full-accuracy, secondary, neutral white), so they are
embedded as distinct constructors. -/
inductive HighlightColor where
  | perfectColor
  | goodColor
  | white
deriving DecidableEq

/-- `lib.rs:182-190`: the judge-line color computed each frame from
`judge.counts`. Index mapping (from the spec's data model, the `Judge`
source not being among the given files): 0 = Perfect, 1 = Good, 2 = Bad,
3 = Miss. -/
def judgeLineColor (counts : Fin 4 → Nat) : HighlightColor :=
  if counts 2 + counts 3 = 0 then
    if counts 1 = 0 then .perfectColor else .goodColor
  else .white

/-- The session loop's time bookkeeping (`lib.rs:129-131`): the `start_time`
epoch and the optional `pause_time`, both raw clock readings from
`get_time()` scaled by the playback speed. -/
structure TM where
  start_time : ℚ
  pause_time : Option ℚ
deriving DecidableEq

/-- `lib.rs:164`: `let time = pause_time.unwrap_or_else(&get_time) - start_time;`.
`raw` is the `get_time()` reading the frame would use when not paused. -/
def TM.now (tm : TM) (raw : ℚ) : ℚ :=
  tm.pause_time.getD raw - tm.start_time

/-- `lib.rs:410` (and `lib.rs:223`): `pause_time = Some(get_time());`. -/
def TM.pause (tm : TM) (raw : ℚ) : TM :=
  { tm with pause_time := some raw }

/-- `lib.rs:407`: `start_time += get_time() - pause_time.take().unwrap();`.
The code path is guarded by `res.audio.paused(..)`, which holds exactly when
a pause recorded `pause_time`; the `none` branch is the guarded-out case. -/
def TM.resume (tm : TM) (raw : ℚ) : TM :=
  match tm.pause_time with
  | some p => { start_time := tm.start_time + (raw - p), pause_time := none }
  | none => tm

/-- `lib.rs:417` and `lib.rs:423`: `start_time = get_time() - dst;` with
`dst` the seek target. -/
def TM.seek (tm : TM) (raw target : ℚ) : TM :=
  { tm with start_time := raw - target }

/-- The judgment engine's session state. Its public fields per the spec's
external interface (`combo: u32`, `score`, `counts: [u32;4]`); the rest of
the engine's per-note state (judged flags, hold tracking) is abstract in
`noteState : ν` since `judge.rs` is not among the given files. -/
structure Judge (ν : Type) where
  combo : Nat
  score : ℚ
  counts : Fin 4 → Nat
  noteState : ν
deriving DecidableEq

/-- The fields of `Resource` the session loop reads or writes
(`lib.rs`). The audio handle is folded in (`audioPos`, `audioPaused`);
all remaining resource state is abstract in `rest : ρ`. -/
structure Res (ρ : Type) where
  time : ℚ
  judge_line_color : HighlightColor
  track_length : ℚ
  audioPos : ℚ
  audioPaused : Bool
  rest : ρ
deriving DecidableEq

/-- The parsed chart: its `offset` (read at `lib.rs:174`) plus the abstract
payload (lines, notes, events — their structures are not among the given
files). -/
structure Chart (κ : Type) where
  offset : ℚ
  payload : κ
deriving DecidableEq

/-- The pause-menu touch outcome computed at `lib.rs:338-356`:
`Some(-1)` = back, `Some(0)` = retry, `Some(1)` = resume. -/
inductive MenuChoice where
  | back
  | retry
  | resume
deriving DecidableEq

/-- The per-frame inputs of one iteration of the `'app` loop: the raw clock
readings of the frame's `get_time()` call sites and the decoded touch /
key queries. -/
structure FrameInput where
  tRead : ℚ
  pauseTouched : Bool
  tPauseBtn : ℚ
  menuChoice : Option MenuChoice
  tRetry : ℚ
  tResume : ℚ
  tRewind : ℚ
  quitKey : Bool
deriving DecidableEq

/-- The mutable state of the session loop in `the_main`
(`lib.rs:129-133` and the loop body), plus a ghost counter `parses` of how
many times a chart parser has been invoked. -/
structure GameState (ν β κ ρ : Type) where
  start_time : ℚ
  pause_time : Option ℚ
  pause_rewind : Option ℚ
  judge : Judge ν
  badNotes : List β
  res : Res ρ
  chart : Chart κ
  parses : Nat
deriving DecidableEq

/-- The outcome of one loop iteration: `exit` models `break`. -/
inductive FrameResult (ν β κ ρ : Type) where
  | exit
  | next (st : GameState ν β κ ρ)
deriving DecidableEq

/-- `lib.rs:164` together with `lib.rs:174`: the chart time of the frame,
`(pause_time.unwrap_or(get_time) - start_time - chart.offset).max(0)`. -/
def chartTimeOf {ν β κ ρ : Type} (st : GameState ν β κ ρ) (tRead : ℚ) : ℚ :=
  max ((st.pause_time.getD tRead - st.start_time) - st.chart.offset) 0

/-- `lib.rs:199`: `bad_notes.retain(|dummy| dummy.render(&mut res));`.
`Vec::retain` keeps, in order, exactly the elements whose call returned
`true`, threading the mutable render state through the calls. -/
def retainRender {β σ : Type} (render : β → σ → Bool × σ) :
    List β → σ → List β × σ
  | [], r => ([], r)
  | b :: bs, r =>
    let p := render b r
    let rest := retainRender render bs p.2
    (if p.1 then b :: rest.1 else rest.1, rest.2)

/-- The sequence of booleans the successive `render` calls of
`retainRender` return, in list order. -/
def renderFlags {β σ : Type} (render : β → σ → Bool × σ) :
    List β → σ → List Bool
  | [], _ => []
  | b :: bs, r => (render b r).1 :: renderFlags render bs (render b r).2

/-- `lib.rs:179-181`: `judge.update` runs only when neither `pause_time`
nor `pause_rewind` is set. `jU` abstracts `Judge::update`, which mutates
the judge, the resource, the chart and the bad-note list. -/
def judgeStage {ν β κ ρ : Type}
    (jU : Judge ν → Res ρ → Chart κ → List β →
      Judge ν × Res ρ × Chart κ × List β)
    (st : GameState ν β κ ρ) : GameState ν β κ ρ :=
  if st.pause_time = none ∧ st.pause_rewind = none then
    let p := jU st.judge st.res st.chart st.badNotes
    { st with judge := p.1, res := p.2.1, chart := p.2.2.1, badNotes := p.2.2.2 }
  else st

/-- `lib.rs:182-190`: `res.judge_line_color` is reassigned every frame from
the current counts, overwriting whatever the field held. -/
def colorStage {ν β κ ρ : Type} (st : GameState ν β κ ρ) : GameState ν β κ ρ :=
  { st with res := { st.res with judge_line_color := judgeLineColor st.judge.counts } }

/-- `lib.rs:191-199`: `chart.update(&mut res)`, `chart.render(&mut res)` and
the bad-note retain pass. `cU` and `cR` abstract the chart methods (not
among the given files); `nR` abstracts `BadNote::render`. -/
def renderStage {ν β κ ρ : Type}
    (cU : Chart κ → Res ρ → Chart κ × Res ρ)
    (cR : Chart κ → Res ρ → Res ρ)
    (nR : β → Res ρ → Bool × Res ρ)
    (st : GameState ν β κ ρ) : GameState ν β κ ρ :=
  let p := cU st.chart st.res
  let r := cR p.1 p.2
  let q := retainRender nR st.badNotes r
  { st with chart := p.1, res := q.2, badNotes := q.1 }

/-- `lib.rs:213-224`: a Started touch on the pause button, while unpaused,
pauses the audio and records `pause_time`. -/
def pauseButtonStage {ν β κ ρ : Type} (st : GameState ν β κ ρ)
    (inp : FrameInput) : GameState ν β κ ρ :=
  if st.pause_time = none ∧ inp.pauseTouched then
    { st with res := { st.res with audioPaused := true },
              pause_time := some inp.tPauseBtn }
  else st

/-- `lib.rs:360-367`, the `Some(0)` (retry) branch: `judge.reset(&mut chart)`,
judge-line color back to the full-accuracy color, audio resumed and sought
to 0, `start_time = get_time()`, `pause_time = None`. `jR` abstracts
`Judge::reset`. -/
def retryBranch {ν β κ ρ : Type}
    (jR : Judge ν → Chart κ → Judge ν × Chart κ)
    (st : GameState ν β κ ρ) (tRetry : ℚ) : GameState ν β κ ρ :=
  let p := jR st.judge st.chart
  { st with judge := p.1, chart := p.2,
            res := { st.res with judge_line_color := .perfectColor,
                                 audioPaused := false, audioPos := 0 },
            start_time := tRetry, pause_time := none }

/-- `lib.rs:368-376`, the `Some(1)` (resume) branch: audio resumed, rewound
by 3 seconds (clamped at 0), `start_time = get_time() - dst`, and the
rewind countdown armed at `start_time + dst - 0.2`. -/
def resumeRewindBranch {ν β κ ρ : Type} (st : GameState ν β κ ρ)
    (tResume : ℚ) : GameState ν β κ ρ :=
  let dst := max (st.res.audioPos - 3) 0
  { st with pause_time := none,
            res := { st.res with audioPaused := false,
                                 time := st.res.time - 1, audioPos := dst },
            start_time := tResume - dst,
            pause_rewind := some ((tResume - dst) + dst - 1/5) }

/-- `lib.rs:304-379`: the pause-menu touch handling, active only while
`pause_time` is set; back breaks the loop, retry and resume take their
branches. -/
def pauseMenuStage {ν β κ ρ : Type}
    (jR : Judge ν → Chart κ → Judge ν × Chart κ)
    (st : GameState ν β κ ρ) (inp : FrameInput) : FrameResult ν β κ ρ :=
  if st.pause_time.isSome then
    match inp.menuChoice with
    | some .back => .exit
    | some .retry => .next (retryBranch jR st inp.tRetry)
    | some .resume => .next (resumeRewindBranch st inp.tResume)
    | none => .next st
  else .next st

/-- `lib.rs:380-396`: the rewind countdown; once
`3 - floor(get_time() - time) <= 0` the countdown is cleared. -/
def rewindStage {ν β κ ρ : Type} (st : GameState ν β κ ρ)
    (tRewind : ℚ) : GameState ν β κ ρ :=
  match st.pause_rewind with
  | none => st
  | some time =>
    if 3 - ⌊tRewind - time⌋ ≤ 0 then { st with pause_rewind := none } else st

/-- `lib.rs:178`: `res.time = time;` with the frame's chart time. -/
def setTimeStage {ν β κ ρ : Type} (st : GameState ν β κ ρ)
    (tRead : ℚ) : GameState ν β κ ρ :=
  { st with res := { st.res with time := chartTimeOf st tRead } }

/-- `lib.rs:178-224`: the part of the frame between the end-of-track break
and the pause menu, composed in source order. -/
def framePre {ν β κ ρ : Type}
    (jU : Judge ν → Res ρ → Chart κ → List β →
      Judge ν × Res ρ × Chart κ × List β)
    (cU : Chart κ → Res ρ → Chart κ × Res ρ)
    (cR : Chart κ → Res ρ → Res ρ)
    (nR : β → Res ρ → Bool × Res ρ)
    (st : GameState ν β κ ρ) (inp : FrameInput) : GameState ν β κ ρ :=
  pauseButtonStage
    (renderStage cU cR nR (colorStage (judgeStage jU (setTimeStage st inp.tRead))))
    inp

/-- `lib.rs:380-430`: the part of the frame after the pause menu — the
rewind countdown and the quit key. -/
def framePost {ν β κ ρ : Type} (st : GameState ν β κ ρ)
    (inp : FrameInput) : FrameResult ν β κ ρ :=
  let st7 := rewindStage st inp.tRewind
  if inp.quitKey then .exit else .next st7

/-- One iteration of the `'app` loop (`lib.rs:134-430`), in source order:
chart-time computation (`164`, `174`), the end-of-track break (`175-177`),
`res.time` assignment (`178`), the gated judge update (`179-181`), the
judge-line color (`182-190`), chart update/render and the bad-note retain
pass (`191-199`), the pause button (`213-224`), the pause menu (`304-379`),
the rewind countdown (`380-396`) and the quit key (`425-427`). The
keyboard time controls (`404-424`) are embedded separately as the `TM`
operations above; they touch neither the judge nor the parse state. -/
def frame {ν β κ ρ : Type}
    (jU : Judge ν → Res ρ → Chart κ → List β →
      Judge ν × Res ρ × Chart κ × List β)
    (cU : Chart κ → Res ρ → Chart κ × Res ρ)
    (cR : Chart κ → Res ρ → Res ρ)
    (nR : β → Res ρ → Bool × Res ρ)
    (jR : Judge ν → Chart κ → Judge ν × Chart κ)
    (st : GameState ν β κ ρ) (inp : FrameInput) : FrameResult ν β κ ρ :=
  if st.res.track_length + 4/5 < chartTimeOf st inp.tRead then .exit
  else
    match pauseMenuStage jR (framePre jU cU cR nR st inp) inp with
    | .exit => .exit
    | .next st6 => framePost st6 inp

/-- `config::ChartFormat`, the tag dispatched at `lib.rs:83-87`. -/
inductive ChartFormat where
  | rpe
  | pgr
  | pec
deriving DecidableEq

/-- `lib.rs:83-87`: the format dispatch. The three parsers are abstract
parameters (their sources are not among the given files); `τ` is the raw
chart text. -/
def parseDispatch {τ ε κ : Type} (pRpe pPgr pPec : τ → Except ε (Chart κ)) :
    ChartFormat → τ → Except ε (Chart κ)
  | .rpe, text => pRpe text
  | .pgr, text => pPgr text
  | .pec, text => pPec text

/-- `lib.rs:82-133`: the load phase of `the_main`, in source order: parse
(each `?` propagates the error), `Resource::new` (`?`), `Judge::new`,
`audio.play` (`?`), then the initial loop state with `start_time` from
`get_time()` and an empty bad-note list. The ghost field `parses` records
that the parser dispatch ran exactly once. -/
def loadSession {τ ε ν β κ ρ : Type}
    (pRpe pPgr pPec : τ → Except ε (Chart κ))
    (fmt : ChartFormat) (text : τ)
    (mkRes : Except ε (Res ρ))
    (judgeNew : Chart κ → Judge ν)
    (audioPlay : Res ρ → Except ε (Res ρ))
    (t0 : ℚ) : Except ε (GameState ν β κ ρ) :=
  match parseDispatch pRpe pPgr pPec fmt text with
  | .error e => .error e
  | .ok chart =>
    match mkRes with
    | .error e => .error e
    | .ok res =>
      let judge := judgeNew chart
      match audioPlay res with
      | .error e => .error e
      | .ok res =>
        .ok { start_time := t0, pause_time := none, pause_rewind := none,
              judge := judge, badNotes := [], res := res, chart := chart,
              parses := 1 }

/-- `prpr/src/ext.rs`'s `SafeTexture`, restricted to what `loading.rs` uses:
either the distinguished static `BLACK_TEXTURE` or a texture decoded from
the illustration image (identified abstractly by a number). -/
inductive SafeTexture where
  | black
  | tex (id : Nat)
deriving DecidableEq

/-- The fields of `LoadingScene` (`loading.rs:22-31`) the verified
properties read: the two textures, whether the game-scene future is still
pending, the produced next scene (`σ` abstracts `GameScene`),
`finish_time` (with `none` embedding the initial `f32::INFINITY`), and
whether a render target was installed by `enter`. -/
structure LoadingState (σ : Type) where
  illustration : SafeTexture
  background : SafeTexture
  hasFuture : Bool
  next_scene : Option σ
  finish_time : Option ℚ
  hasTarget : Bool
deriving DecidableEq

/-- `loading.rs:18`. -/
def BEFORE_TIME : ℚ := 1

/-- `loading.rs:19`. -/
def TRANSITION_TIME : ℚ := 7/5

/-- `loading.rs:20`. -/
def WAIT_TIME : ℚ := 2/5

/-- `loading.rs:36-94`, `LoadingScene::new` restricted to the modeled
fields: the illustration load result (`loadRes`, abstracting the inner
`load` future; a pair of decoded texture ids on success) is matched; on
error a warning is logged and both textures fall back to `BLACK_TEXTURE`;
construction then succeeds with the future pending, no next scene,
`finish_time = INFINITY` and no target. -/
def LoadingScene.new {ε σ : Type} (loadRes : Except ε (Nat × Nat)) :
    Except ε (LoadingState σ) :=
  let bg : Option (Nat × Nat) :=
    match loadRes with
    | .ok p => some p
    | .error _ => none
  let texs : SafeTexture × SafeTexture :=
    match bg with
    | some p => (.tex p.1, .tex p.2)
    | none => (.black, .black)
  .ok { illustration := texs.1, background := texs.2, hasFuture := true,
        next_scene := none, finish_time := none, hasTarget := false }

/-- The inner `loop` of `LoadingScene::update` (`loading.rs:105-120`):
`polls` is the sequence of successive `poll_future` outcomes (`none` =
pending). On pending, the loop breaks if no target is installed and
yields-and-repolls otherwise; on a completed poll the future is dropped
and, on success, the next scene and `finish_time` are recorded, while a
failed load (`game_scene?`) surfaces the error. Returns the new state and
the surfaced error, if any. -/
def pollLoop {γ σ ε : Type} (mk : γ → σ) (now : ℚ) (s : LoadingState σ) :
    List (Option (Except ε γ)) → LoadingState σ × Option ε
  | [] => (s, none)
  | none :: rest => if s.hasTarget then pollLoop mk now s rest else (s, none)
  | some (.error e) :: _ => ({ s with hasFuture := false }, some e)
  | some (.ok g) :: _ =>
    ({ s with hasFuture := false, next_scene := some (mk g),
              finish_time := some (now + BEFORE_TIME) }, none)

/-- `loading.rs:103-123`, `LoadingScene::update`: the polling loop runs
only while the future is still there. -/
def LoadingScene.update {γ σ ε : Type} (mk : γ → σ) (now : ℚ)
    (s : LoadingState σ) (polls : List (Option (Except ε γ))) :
    LoadingState σ × Option ε :=
  if s.hasFuture then pollLoop mk now s polls else (s, none)

/-- `scene::NextScene`, restricted to the variants `next_scene` returns. -/
inductive NextSceneR (σ : Type) where
  | none
  | replace (s : σ)
deriving DecidableEq

/-- The guard of `loading.rs:209`:
`tm.now() as f32 > self.finish_time + TRANSITION_TIME + WAIT_TIME`, which
is false while `finish_time` is still `INFINITY`. -/
def finishElapsed (finish : Option ℚ) (now : ℚ) : Bool :=
  match finish with
  | Option.none => false
  | some f => decide (f + TRANSITION_TIME + WAIT_TIME < now)

/-- `loading.rs:208-215`, `LoadingScene::next_scene`: once the delay has
elapsed, the stored scene is taken (`Option::take`) and returned as a
`Replace` transition. -/
def LoadingScene.nextScene {σ : Type} (s : LoadingState σ) (now : ℚ) :
    NextSceneR σ × LoadingState σ :=
  if finishElapsed s.finish_time now then
    match s.next_scene with
    | some sc => (.replace sc, { s with next_scene := none })
    | none => (.none, s)
  else (.none, s)

/-! Concrete instantiations of the abstract collaborators, used by the
closed counterexample and witness statements below. All abstract type
parameters are instantiated at `Unit` and the collaborator functions at
the identity-like functions, except `cNR`, a bad-note render call that
reports expiry (returns `false`). -/

/-- Concrete `Judge::update`: leaves everything unchanged. -/
def cJU : Judge Unit → Res Unit → Chart Unit → List Unit →
    Judge Unit × Res Unit × Chart Unit × List Unit :=
  fun j r c b => (j, r, c, b)

/-- Concrete `Chart::update`: leaves everything unchanged. -/
def cCU : Chart Unit → Res Unit → Chart Unit × Res Unit := fun c r => (c, r)

/-- Concrete `Chart::render`: leaves the resource unchanged. -/
def cCR : Chart Unit → Res Unit → Res Unit := fun _ r => r

/-- Concrete `BadNote::render` whose animation has expired: it returns
`false`, asking to be removed from the pending list. -/
def cNR : Unit → Res Unit → Bool × Res Unit := fun _ r => (false, r)

/-- Concrete `Judge::reset`: leaves judge and chart unchanged. -/
def cJR : Judge Unit → Chart Unit → Judge Unit × Chart Unit := fun j c => (j, c)

/-- A concrete paused session state with one pending bad note. -/
def pausedSt : GameState Unit Unit Unit Unit :=
  { start_time := 0, pause_time := some 0, pause_rewind := none,
    judge := { combo := 0, score := 0, counts := fun _ => 0, noteState := () },
    badNotes := [()],
    res := { time := 0, judge_line_color := .white, track_length := 10,
             audioPos := 0, audioPaused := true, rest := () },
    chart := { offset := 0, payload := () },
    parses := 1 }

/-- A frame input with no touches and no keys: the session just sits on the
pause screen for one frame. -/
def idleInp : FrameInput :=
  { tRead := 0, pauseTouched := false, tPauseBtn := 0, menuChoice := none,
    tRetry := 0, tResume := 0, tRewind := 0, quitKey := false }

/-- The state `frame` produces from `pausedSt` under `idleInp`: the judge
is untouched but the expired bad note is gone and the judge-line color was
recomputed from the (all-zero) counts. -/
def pausedStRes : GameState Unit Unit Unit Unit :=
  { pausedSt with
      badNotes := [],
      res := { pausedSt.res with judge_line_color := .perfectColor } }

/-! ### Helper lemmas about the frame stages -/

theorem setTimeStage_judge {ν β κ ρ : Type} (st : GameState ν β κ ρ) (t : ℚ) :
    (setTimeStage st t).judge = st.judge := rfl

theorem setTimeStage_pause {ν β κ ρ : Type} (st : GameState ν β κ ρ) (t : ℚ) :
    (setTimeStage st t).pause_time = st.pause_time ∧
    (setTimeStage st t).pause_rewind = st.pause_rewind := ⟨rfl, rfl⟩

theorem judgeStage_of_paused {ν β κ ρ : Type}
    (jU : Judge ν → Res ρ → Chart κ → List β →
      Judge ν × Res ρ × Chart κ × List β)
    (st : GameState ν β κ ρ)
    (hp : st.pause_time ≠ none ∨ st.pause_rewind ≠ none) :
    judgeStage jU st = st := by
  unfold judgeStage
  rw [if_neg]
  tauto

theorem judgeStage_parses {ν β κ ρ : Type}
    (jU : Judge ν → Res ρ → Chart κ → List β →
      Judge ν × Res ρ × Chart κ × List β)
    (st : GameState ν β κ ρ) :
    (judgeStage jU st).parses = st.parses := by
  unfold judgeStage
  split <;> rfl

theorem colorStage_judge {ν β κ ρ : Type} (st : GameState ν β κ ρ) :
    (colorStage st).judge = st.judge := rfl

theorem renderStage_fields {ν β κ ρ : Type}
    (cU : Chart κ → Res ρ → Chart κ × Res ρ)
    (cR : Chart κ → Res ρ → Res ρ)
    (nR : β → Res ρ → Bool × Res ρ)
    (st : GameState ν β κ ρ) :
    (renderStage cU cR nR st).judge = st.judge ∧
    (renderStage cU cR nR st).parses = st.parses ∧
    (renderStage cU cR nR st).badNotes =
      (retainRender nR st.badNotes
        (cR (cU st.chart st.res).1 (cU st.chart st.res).2)).1 :=
  ⟨rfl, rfl, rfl⟩

theorem pauseButtonStage_fields {ν β κ ρ : Type} (st : GameState ν β κ ρ)
    (inp : FrameInput) :
    (pauseButtonStage st inp).judge = st.judge ∧
    (pauseButtonStage st inp).parses = st.parses ∧
    (pauseButtonStage st inp).badNotes = st.badNotes := by
  unfold pauseButtonStage
  split <;> exact ⟨rfl, rfl, rfl⟩

theorem rewindStage_fields {ν β κ ρ : Type} (st : GameState ν β κ ρ) (t : ℚ) :
    (rewindStage st t).judge = st.judge ∧
    (rewindStage st t).parses = st.parses ∧
    (rewindStage st t).badNotes = st.badNotes := by
  unfold rewindStage
  split
  · exact ⟨rfl, rfl, rfl⟩
  · split <;> exact ⟨rfl, rfl, rfl⟩

theorem pauseMenuStage_no_retry {ν β κ ρ : Type}
    (jR : Judge ν → Chart κ → Judge ν × Chart κ)
    (st : GameState ν β κ ρ) (inp : FrameInput)
    (st' : GameState ν β κ ρ)
    (hm : inp.menuChoice ≠ some MenuChoice.retry)
    (h : pauseMenuStage jR st inp = .next st') :
    st'.judge = st.judge ∧ st'.parses = st.parses ∧
    st'.badNotes = st.badNotes := by
  unfold pauseMenuStage at h
  split at h
  · rcases hc : inp.menuChoice with _ | mc
    · rw [hc] at h
      cases h
      exact ⟨rfl, rfl, rfl⟩
    · cases mc
      · rw [hc] at h; cases h
      · exact absurd hc hm
      · rw [hc] at h
        cases h
        exact ⟨rfl, rfl, rfl⟩
  · cases h
    exact ⟨rfl, rfl, rfl⟩

theorem pauseMenuStage_parses {ν β κ ρ : Type}
    (jR : Judge ν → Chart κ → Judge ν × Chart κ)
    (st : GameState ν β κ ρ) (inp : FrameInput)
    (st' : GameState ν β κ ρ)
    (h : pauseMenuStage jR st inp = .next st') :
    st'.parses = st.parses := by
  unfold pauseMenuStage at h
  split at h
  · rcases hc : inp.menuChoice with _ | mc
    · rw [hc] at h; cases h; rfl
    · cases mc
      · rw [hc] at h; cases h
      · rw [hc] at h; cases h; rfl
      · rw [hc] at h; cases h; rfl
  · cases h; rfl

theorem framePre_parses {ν β κ ρ : Type}
    (jU : Judge ν → Res ρ → Chart κ → List β →
      Judge ν × Res ρ × Chart κ × List β)
    (cU : Chart κ → Res ρ → Chart κ × Res ρ)
    (cR : Chart κ → Res ρ → Res ρ)
    (nR : β → Res ρ → Bool × Res ρ)
    (st : GameState ν β κ ρ) (inp : FrameInput) :
    (framePre jU cU cR nR st inp).parses = st.parses := by
  unfold framePre
  rw [(pauseButtonStage_fields _ _).2.1, (renderStage_fields _ _ _ _).2.1]
  exact judgeStage_parses _ _

theorem framePre_of_paused {ν β κ ρ : Type}
    (jU : Judge ν → Res ρ → Chart κ → List β →
      Judge ν × Res ρ × Chart κ × List β)
    (cU : Chart κ → Res ρ → Chart κ × Res ρ)
    (cR : Chart κ → Res ρ → Res ρ)
    (nR : β → Res ρ → Bool × Res ρ)
    (st : GameState ν β κ ρ) (inp : FrameInput)
    (hp : st.pause_time ≠ none ∨ st.pause_rewind ≠ none) :
    (framePre jU cU cR nR st inp).judge = st.judge ∧
    ∃ r', (framePre jU cU cR nR st inp).badNotes =
      (retainRender nR st.badNotes r').1 := by
  unfold framePre
  rw [judgeStage_of_paused jU (setTimeStage st inp.tRead) hp]
  constructor
  · rw [(pauseButtonStage_fields _ _).1, (renderStage_fields _ _ _ _).1]
    rfl
  · refine ⟨cR (cU (colorStage (setTimeStage st inp.tRead)).chart
        (colorStage (setTimeStage st inp.tRead)).res).1
      (cU (colorStage (setTimeStage st inp.tRead)).chart
        (colorStage (setTimeStage st inp.tRead)).res).2, ?_⟩
    rw [(pauseButtonStage_fields _ _).2.2]
    exact (renderStage_fields _ _ _ _).2.2

/-! ### Claim theorems -/

/-- C1: every frame, the judge-line highlight color is recomputed purely
from the current judgment counts — the full-accuracy color exactly when
`counts[Bad] + counts[Miss] = 0` and `counts[Good] = 0`, the secondary
color exactly when `counts[Bad] + counts[Miss] = 0` and `counts[Good] > 0`,
and white exactly when `counts[Bad] + counts[Miss] > 0`; and the frame's
color stage assigns exactly `judgeLineColor` of the current counts,
regardless of the previous value of the field. -/
theorem judge_line_color_spec :
    (∀ counts : Fin 4 → Nat,
      (judgeLineColor counts = .perfectColor ↔
        counts 2 + counts 3 = 0 ∧ counts 1 = 0) ∧
      (judgeLineColor counts = .goodColor ↔
        counts 2 + counts 3 = 0 ∧ 0 < counts 1) ∧
      (judgeLineColor counts = .white ↔ 0 < counts 2 + counts 3)) ∧
    (∀ (ν β κ ρ : Type) (st : GameState ν β κ ρ),
      (colorStage st).res.judge_line_color = judgeLineColor st.judge.counts) := by
  constructor
  · intro counts
    by_cases h23 : counts 2 + counts 3 = 0 <;> by_cases h1 : counts 1 = 0 <;>
      simp [judgeLineColor, h23, h1] <;> omega
  · intro ν β κ ρ st
    rfl

/-- C2: pausing records the current raw-clock moment and freezes the
chart-time reading at the value it had at the pause moment, and resuming
shifts `start_time` forward by the paused duration, so that the reading at
the resume instant equals the frozen value — for every pause/resume pair
at any moments. -/
theorem pause_resume_seamless (tm : TM) (tp tr r : ℚ) :
    (TM.pause tm tp).now r = tp - tm.start_time ∧
    ((TM.pause tm tp).resume tr).now tr = (TM.pause tm tp).now r := by
  constructor
  · rfl
  · show tr - (tm.start_time + (tr - tp)) = tp - tm.start_time
    ring

/-- C3, counterexample: with the game paused (`pause_time = Some 1`,
`start_time = 0`), seeking to `5` at raw clock `2` does not make the next
chart-time computation read `5` — the reading stays derived from the
frozen `pause_time` and yields `4`. -/
theorem seek_paused_cex :
    (TM.seek { start_time := 0, pause_time := some 1 } 2 5).now 2 ≠ 5 := by
  with_unfolding_all decide

/-- C3, amended: seeking to `to` redefines `start_time` as the current raw
clock reading minus `to` unconditionally; provided the game is not paused
(`pause_time` is `None`), the very next chart-time computation reads `to`
immediately. -/
theorem seek_reads_target (tm : TM) (raw target : ℚ) :
    (tm.seek raw target).start_time = raw - target ∧
    (tm.pause_time = none → (tm.seek raw target).now raw = target) := by
  refine ⟨rfl, fun h => ?_⟩
  unfold TM.seek TM.now
  rw [h]
  show raw - (raw - target) = target
  ring

/-- C4: a parse failure of the chart text, in any of the three dispatched
formats, is fatal — the error propagates out of the load phase before any
session state (judge, audio playback, loop state) is created, so no
playable-but-corrupt chart is ever produced. -/
theorem parse_failure_fatal {τ ε ν β κ ρ : Type}
    (pRpe pPgr pPec : τ → Except ε (Chart κ)) (fmt : ChartFormat) (text : τ)
    (mkRes : Except ε (Res ρ)) (judgeNew : Chart κ → Judge ν)
    (audioPlay : Res ρ → Except ε (Res ρ)) (t0 : ℚ) (e : ε)
    (h : parseDispatch pRpe pPgr pPec fmt text = .error e) :
    loadSession (β := β) pRpe pPgr pPec fmt text mkRes judgeNew audioPlay t0
      = .error e := by
  unfold loadSession
  rw [h]

/-- C4, witness: a concrete Rpe-format load whose parser fails with error
code 7 makes the whole load phase fail with error code 7. -/
theorem parse_failure_fatal_witness :
    loadSession (τ := Unit) (ν := Unit) (β := Unit) (κ := Unit) (ρ := Unit)
      (fun _ => .error 7) (fun _ => .error 8) (fun _ => .error 9)
      ChartFormat.rpe ()
      (.ok { time := 0, judge_line_color := .white, track_length := 0,
             audioPos := 0, audioPaused := false, rest := () })
      (fun _ => { combo := 0, score := 0, counts := fun _ => 0,
                  noteState := () })
      (fun r => .ok r) 0 = .error 7 :=
  parse_failure_fatal _ _ _ _ _ _ _ _ _ 7 rfl

/-- C6: when loading the background/illustration asset fails, the failure
is recovered locally — the black placeholder texture is substituted for
both the illustration and the background, and `LoadingScene` construction
still succeeds. -/
theorem background_fallback {ε σ : Type} (e : ε) :
    LoadingScene.new (σ := σ) (Except.error e) =
      .ok { illustration := .black, background := .black, hasFuture := true,
            next_scene := none, finish_time := none, hasTarget := false } := rfl

/-- C7: in the per-frame retain pass over the pending BadNotes, every
pending BadNote's render call returns a boolean, and the note is kept for
the next frame exactly when its own call returned `true` (removed exactly
when it returned `false`), with the render state threaded through the
calls in list order. -/
theorem bad_note_retain_spec {β σ : Type} (render : β → σ → Bool × σ)
    (bs : List β) (r : σ) :
    (retainRender render bs r).1
      = (((bs.zip (renderFlags render bs r)).filter (fun p => p.2)).map
          Prod.fst) ∧
    (renderFlags render bs r).length = bs.length := by
  induction bs generalizing r with
  | nil => exact ⟨rfl, rfl⟩
  | cons b bs ih =>
    have h := ih (render b r).2
    constructor
    · simp only [retainRender, renderFlags, List.zip_cons_cons,
        List.filter_cons]
      cases hb : (render b r).1 <;> simp [h.1, hb]
    · simp [renderFlags, h.2]

/-- C10: the chart time computed each frame (and handed to the judgment
engine and renderer through `res.time`) is never negative, and the session
loop breaks as soon as it exceeds `track_length + 0.8` seconds. -/
theorem chart_time_nonneg_and_break {ν β κ ρ : Type}
    (jU : Judge ν → Res ρ → Chart κ → List β →
      Judge ν × Res ρ × Chart κ × List β)
    (cU : Chart κ → Res ρ → Chart κ × Res ρ)
    (cR : Chart κ → Res ρ → Res ρ)
    (nR : β → Res ρ → Bool × Res ρ)
    (jR : Judge ν → Chart κ → Judge ν × Chart κ)
    (st : GameState ν β κ ρ) (inp : FrameInput) :
    0 ≤ chartTimeOf st inp.tRead ∧
    (st.res.track_length + 4/5 < chartTimeOf st inp.tRead →
      frame jU cU cR nR jR st inp = .exit) := by
  refine ⟨le_max_right _ _, fun h => ?_⟩
  unfold frame
  rw [if_pos h]

theorem pollLoop_pending {γ σ ε : Type} (mk : γ → σ) (now : ℚ)
    (s : LoadingState σ) (polls : List (Option (Except ε γ)))
    (hp : ∀ p ∈ polls, p = none) :
    pollLoop mk now s polls = (s, none) := by
  induction polls with
  | nil => rfl
  | cons p rest ih =>
    have hp0 : p = none := hp p (by simp)
    subst hp0
    simp only [pollLoop]
    split
    · exact ih fun q hq => hp q (by simp [hq])
    · rfl

theorem pollLoop_scene_source {γ σ ε : Type} (mk : γ → σ) (now : ℚ)
    (s : LoadingState σ) (polls : List (Option (Except ε γ)))
    (h : (pollLoop mk now s polls).1.next_scene ≠ none) :
    s.next_scene ≠ none ∨ ∃ g, some (Except.ok g) ∈ polls := by
  induction polls generalizing s with
  | nil => exact Or.inl h
  | cons p rest ih =>
    cases p with
    | none =>
      simp only [pollLoop] at h
      split at h
      · rcases ih s h with h' | ⟨g, hg⟩
        · exact Or.inl h'
        · exact Or.inr ⟨g, by simp [hg]⟩
      · exact Or.inl h
    | some r =>
      cases r with
      | error e =>
        simp only [pollLoop] at h
        exact Or.inl h
      | ok g => exact Or.inr ⟨g, by simp⟩

/-- C5: the loading scene tolerates being polled repeatedly while the
game-scene future is not yet ready — a frame whose polls are all pending
leaves the state (the future included) unchanged and surfaces no error;
`next_scene` returns a `Replace` transition only once the stored scene
exists and the configured delay (`finish_time` plus the transition and
wait times) has elapsed; and the stored scene appears only through a poll
that completed successfully. -/
theorem loading_poll_spec :
    (∀ (γ σ ε : Type) (mk : γ → σ) (now : ℚ) (s : LoadingState σ)
        (polls : List (Option (Except ε γ))),
        (∀ p ∈ polls, p = none) →
        LoadingScene.update mk now s polls = (s, none)) ∧
    (∀ (σ : Type) (s : LoadingState σ) (now : ℚ) (sc : σ),
        (LoadingScene.nextScene s now).1 = .replace sc →
        finishElapsed s.finish_time now = true ∧ s.next_scene = some sc) ∧
    (∀ (γ σ ε : Type) (mk : γ → σ) (now : ℚ) (s : LoadingState σ)
        (polls : List (Option (Except ε γ))),
        (LoadingScene.update mk now s polls).1.next_scene ≠ none →
        s.next_scene ≠ none ∨ ∃ g, some (Except.ok g) ∈ polls) := by
  refine ⟨?_, ?_, ?_⟩
  · intro γ σ ε mk now s polls hp
    unfold LoadingScene.update
    split
    · exact pollLoop_pending mk now s polls hp
    · rfl
  · intro σ s now sc h
    unfold LoadingScene.nextScene at h
    split at h
    case isTrue hf =>
      rcases hsc : s.next_scene with _ | sc'
      · rw [hsc] at h
        simp at h
      · rw [hsc] at h
        simp at h
        subst h
        exact ⟨hf, rfl⟩
    case isFalse hf => simp at h
  · intro γ σ ε mk now s polls h
    unfold LoadingScene.update at h
    split at h
    · exact pollLoop_scene_source mk now s polls h
    · exact Or.inl h

/-- C8: retry restarts the session without re-parsing the chart — the load
phase invokes the parser dispatch exactly once (recorded by the ghost
counter `parses = 1`), no frame ever invokes a parser (`parses` is
preserved by every frame), the pause-menu retry touch routes exactly to
the retry branch, and that branch only calls `judge.reset` on the
already-parsed chart, resets the judge-line color to the full-accuracy
color, seeks the audio to 0, and redefines `start_time` to the current
raw clock so the chart-time reading restarts from 0. -/
theorem retry_no_reparse :
    (∀ (τ ε ν β κ ρ : Type) (pRpe pPgr pPec : τ → Except ε (Chart κ))
        (fmt : ChartFormat) (text : τ) (mkRes : Except ε (Res ρ))
        (judgeNew : Chart κ → Judge ν)
        (audioPlay : Res ρ → Except ε (Res ρ)) (t0 : ℚ)
        (s : GameState ν β κ ρ),
        loadSession pRpe pPgr pPec fmt text mkRes judgeNew audioPlay t0
          = .ok s →
        s.parses = 1) ∧
    (∀ (ν β κ ρ : Type)
        (jU : Judge ν → Res ρ → Chart κ → List β →
          Judge ν × Res ρ × Chart κ × List β)
        (cU : Chart κ → Res ρ → Chart κ × Res ρ)
        (cR : Chart κ → Res ρ → Res ρ)
        (nR : β → Res ρ → Bool × Res ρ)
        (jR : Judge ν → Chart κ → Judge ν × Chart κ)
        (st : GameState ν β κ ρ) (inp : FrameInput)
        (st' : GameState ν β κ ρ),
        frame jU cU cR nR jR st inp = .next st' → st'.parses = st.parses) ∧
    (∀ (ν β κ ρ : Type) (jR : Judge ν → Chart κ → Judge ν × Chart κ)
        (st : GameState ν β κ ρ) (inp : FrameInput),
        st.pause_time.isSome → inp.menuChoice = some MenuChoice.retry →
        pauseMenuStage jR st inp = .next (retryBranch jR st inp.tRetry)) ∧
    (∀ (ν β κ ρ : Type) (jR : Judge ν → Chart κ → Judge ν × Chart κ)
        (st : GameState ν β κ ρ) (t : ℚ),
        (retryBranch jR st t).judge = (jR st.judge st.chart).1 ∧
        (retryBranch jR st t).chart = (jR st.judge st.chart).2 ∧
        (retryBranch jR st t).res.judge_line_color =
          HighlightColor.perfectColor ∧
        (retryBranch jR st t).res.audioPos = 0 ∧
        (retryBranch jR st t).res.audioPaused = false ∧
        (retryBranch jR st t).start_time = t ∧
        (retryBranch jR st t).pause_time = none ∧
        (retryBranch jR st t).parses = st.parses ∧
        (0 ≤ (jR st.judge st.chart).2.offset →
          chartTimeOf (retryBranch jR st t) t = 0)) := by
  refine ⟨?_, ?_, ?_, ?_⟩
  · intro τ ε ν β κ ρ pRpe pPgr pPec fmt text mkRes judgeNew audioPlay t0 s h
    unfold loadSession at h
    split at h
    · cases h
    · split at h
      · cases h
      · split at h
        · cases h
        · cases h
          rfl
  · intro ν β κ ρ jU cU cR nR jR st inp st' h
    unfold frame at h
    split at h
    · cases h
    · rcases hpm : pauseMenuStage jR (framePre jU cU cR nR st inp) inp
        with _ | st6
      all_goals rw [hpm] at h
      · cases h
      · cases hq : inp.quitKey with
        | true => simp [framePost, hq] at h
        | false =>
          simp [framePost, hq] at h
          subst h
          rw [(rewindStage_fields _ _).2.1,
            pauseMenuStage_parses _ _ _ _ hpm]
          exact framePre_parses _ _ _ _ _ _
  · intro ν β κ ρ jR st inp hps hmc
    unfold pauseMenuStage
    rw [if_pos hps, hmc]
  · intro ν β κ ρ jR st t
    refine ⟨rfl, rfl, rfl, rfl, rfl, rfl, rfl, rfl, fun hoff => ?_⟩
    have hct : chartTimeOf (retryBranch jR st t) t
        = max ((t - t) - (jR st.judge st.chart).2.offset) 0 := rfl
    rw [hct, max_eq_right (by linarith)]

/-- C9, counterexample: a frame spent on the pause screen
(`pause_time = Some 0`, no touches, no keys) still shrinks the pending
BadNote list — the per-frame render/retain pass at `lib.rs:199` runs
regardless of pause, so a BadNote whose render call reports expiry is
removed even though the judge update was skipped. -/
theorem paused_frame_badnotes_cex :
    pausedSt.pause_time.isSome = true ∧
    frame cJU cCU cCR cNR cJR pausedSt idleInp = .next pausedStRes ∧
    pausedStRes.badNotes ≠ pausedSt.badNotes := by
  with_unfolding_all decide

/-- C9, amended: while the game is paused (`pause_time` is `Some`) or the
rewind countdown is active (`pause_rewind` is `Some`), the judgment
engine's update is not invoked for that frame, so — provided the retry
button is not pressed — combo, score, counts and the per-note judged
state are all unchanged by that frame; the pending BadNote list, however,
is still filtered by the per-frame render pass and may shrink. -/
theorem paused_frame_judge_frozen {ν β κ ρ : Type}
    (jU : Judge ν → Res ρ → Chart κ → List β →
      Judge ν × Res ρ × Chart κ × List β)
    (cU : Chart κ → Res ρ → Chart κ × Res ρ)
    (cR : Chart κ → Res ρ → Res ρ)
    (nR : β → Res ρ → Bool × Res ρ)
    (jR : Judge ν → Chart κ → Judge ν × Chart κ)
    (st : GameState ν β κ ρ) (inp : FrameInput)
    (st' : GameState ν β κ ρ)
    (hp : st.pause_time ≠ none ∨ st.pause_rewind ≠ none)
    (hm : inp.menuChoice ≠ some MenuChoice.retry)
    (h : frame jU cU cR nR jR st inp = .next st') :
    st'.judge = st.judge ∧
    ∃ r', st'.badNotes = (retainRender nR st.badNotes r').1 := by
  unfold frame at h
  split at h
  · cases h
  · rcases hpm : pauseMenuStage jR (framePre jU cU cR nR st inp) inp
      with _ | st6
    all_goals rw [hpm] at h
    · cases h
    · cases hq : inp.quitKey with
      | true => simp [framePost, hq] at h
      | false =>
        simp [framePost, hq] at h
        subst h
        have h6 := pauseMenuStage_no_retry _ _ _ _ hm hpm
        have hf := framePre_of_paused jU cU cR nR st inp hp
        obtain ⟨r', hr'⟩ := hf.2
        refine ⟨?_, r', ?_⟩
        · rw [(rewindStage_fields _ _).1, h6.1, hf.1]
        · rw [(rewindStage_fields _ _).2.2, h6.2.2, hr']

/-- C9, witness for the amended claim: the paused idle frame of the
counterexample leaves the judge untouched, and the resulting pending list
is a retain-filtered version of the old one. -/
theorem paused_frame_judge_frozen_witness :
    pausedStRes.judge = pausedSt.judge ∧
    ∃ r', pausedStRes.badNotes = (retainRender cNR pausedSt.badNotes r').1 :=
  paused_frame_judge_frozen cJU cCU cCR cNR cJR pausedSt idleInp pausedStRes
    (Or.inl (by with_unfolding_all decide))
    (by with_unfolding_all decide)
    (by with_unfolding_all decide)

end Prpr
